import Mathlib

/-
Verification of the pow_sha256 crate: SHA-256 based proof of work over a
typed piece of data.

The repository source under src/ is lib.rs, whose doc comments contain the
two numeric helpers (fn difficulty and fn average) and describe the score
scheme. The proof_of_work module itself (the score function, the proving
loop and the salt constant) is not present under src/, so those parts are
modelled from the specification, as marked in their doc comments.

Machine integers are modelled as Nat with explicit reduction modulo powers
of two; Rust division, which faults on a zero divisor, is modelled as an
Option-valued operation; byte strings are lists of Nat below 256.
-/

set_option maxRecDepth 100000

namespace PowSha256

/-- Modulus of 32 bit words, 2 ^ 32. -/
def M32 : Nat := 4294967296

/-- Right rotation of a 32 bit word, written arithmetically: the low n bits
move to the top. -/
def rotr (n x : Nat) : Nat := x / 2 ^ n + x % 2 ^ n * 2 ^ (32 - n)

/-- Logical right shift of a 32 bit word. -/
def shr (n x : Nat) : Nat := x / 2 ^ n

/-- SHA-256 choice function Ch(x, y, z); the complement of x is taken
inside 32 bits via xor with 2 ^ 32 - 1. -/
def ch (x y z : Nat) : Nat := (x &&& y) ^^^ ((x ^^^ 4294967295) &&& z)

/-- SHA-256 majority function Maj(x, y, z). -/
def maj (x y z : Nat) : Nat := (x &&& y) ^^^ (x &&& z) ^^^ (y &&& z)

/-- SHA-256 upper case sigma 0. -/
def bigSigma0 (x : Nat) : Nat := rotr 2 x ^^^ rotr 13 x ^^^ rotr 22 x

/-- SHA-256 upper case sigma 1. -/
def bigSigma1 (x : Nat) : Nat := rotr 6 x ^^^ rotr 11 x ^^^ rotr 25 x

/-- SHA-256 lower case sigma 0. -/
def smallSigma0 (x : Nat) : Nat := rotr 7 x ^^^ rotr 18 x ^^^ shr 3 x

/-- SHA-256 lower case sigma 1. -/
def smallSigma1 (x : Nat) : Nat := rotr 17 x ^^^ rotr 19 x ^^^ shr 10 x

/-- The 64 SHA-256 round constants of FIPS 180-4, written in decimal. -/
def K : List Nat :=
  [1116352408, 1899447441, 3049323471, 3921009573,
   961987163, 1508970993, 2453635748, 2870763221,
   3624381080, 310598401, 607225278, 1426881987,
   1925078388, 2162078206, 2614888103, 3248222580,
   3835390401, 4022224774, 264347078, 604807628,
   770255983, 1249150122, 1555081692, 1996064986,
   2554220882, 2821834349, 2952996808, 3210313671,
   3336571891, 3584528711, 113926993, 338241895,
   666307205, 773529912, 1294757372, 1396182291,
   1695183700, 1986661051, 2177026350, 2456956037,
   2730485921, 2820302411, 3259730800, 3345764771,
   3516065817, 3600352804, 4094571909, 275423344,
   430227734, 506948616, 659060556, 883997877,
   958139571, 1322822218, 1537002063, 1747873779,
   1955562222, 2024104815, 2227730452, 2361852424,
   2428436474, 2756734187, 3204031479, 3329325298]

/-- The SHA-256 initial hash state of FIPS 180-4, written in decimal. -/
def H0 : List Nat :=
  [1779033703, 3144134277, 1013904242, 2773480762,
   1359893119, 2600822924, 528734635, 1541459225]

/-- Big endian (network order) byte encoding of n on k bytes. -/
def beBytes : Nat → Nat → List Nat
  | 0, _ => []
  | k + 1, n => beBytes k (n / 256) ++ [n % 256]

/-- Reading of a byte list as a big endian unsigned integer. -/
def readBE (bs : List Nat) : Nat := bs.foldl (fun acc b => acc * 256 + b) 0

/-- SHA-256 message padding: a 0x80 byte, zero bytes up to 56 modulo 64,
then the bit length on 8 big endian bytes. -/
def pad (msg : List Nat) : List Nat :=
  msg ++ 128 :: List.replicate ((55 + 64 - msg.length % 64) % 64) 0 ++ beBytes 8 (msg.length * 8)

/-- Grouping of bytes into 32 bit big endian words, with fuel for
structural recursion. -/
def toWords : Nat → List Nat → List Nat
  | 0, _ => []
  | fuel + 1, b0 :: b1 :: b2 :: b3 :: rest =>
      (((b0 * 256 + b1) * 256 + b2) * 256 + b3) :: toWords fuel rest
  | _ + 1, _ => []

/-- SHA-256 message schedule extension: each appended word combines the
words 2, 7, 15 and 16 places back. -/
def extendWords : Nat → List Nat → List Nat
  | 0, ws => ws
  | fuel + 1, ws =>
      let i := ws.length
      extendWords fuel (ws ++ [(smallSigma1 (ws.getD (i - 2) 0) + ws.getD (i - 7) 0 +
        smallSigma0 (ws.getD (i - 15) 0) + ws.getD (i - 16) 0) % M32])

/-- One SHA-256 compression round on the state [a, b, c, d, e, f, g, h],
taking the already combined round constant plus schedule word. -/
def compressStep (st : List Nat) (kw : Nat) : List Nat :=
  match st with
  | [a, b, c, d, e, f, g, h] =>
      let t1 := (h + bigSigma1 e + ch e f g + kw) % M32
      let t2 := (bigSigma0 a + maj a b c) % M32
      [(t1 + t2) % M32, a, b, c, (d + t1) % M32, e, f, g]
  | other => other

/-- Processing of one 64 byte block: schedule, 64 compression rounds, and
addition of the previous state. -/
def processBlock (h : List Nat) (block : List Nat) : List Nat :=
  let ws := extendWords 48 (toWords 16 block)
  let st := (List.zipWith (fun k w => (k + w) % M32) K ws).foldl compressStep h
  List.zipWith (fun x y => (x + y) % M32) h st

/-- Splitting into 64 byte chunks, with fuel for structural recursion. -/
def toChunks : Nat → List Nat → List (List Nat)
  | 0, _ => []
  | _ + 1, [] => []
  | fuel + 1, l => l.take 64 :: toChunks fuel (l.drop 64)

/-- SHA-256 of a byte list: pad, process every block from the initial
state, and write the eight state words out as big endian bytes. -/
def sha256 (msg : List Nat) : List Nat :=
  ((toChunks (msg.length + 65) (pad msg)).foldl processBlock H0).foldr
    (fun w acc => beBytes 4 w ++ acc) []

/-- Validation of the SHA-256 embedding on the FIPS 180-4 test vector for
the empty message. -/
lemma sha256_empty_vector :
    sha256 [] =
      [227, 176, 196, 66, 152, 252, 28, 20, 154, 251, 244, 200, 153, 111, 185, 36,
       39, 174, 65, 228, 100, 155, 147, 76, 164, 149, 153, 27, 120, 82, 184, 85] := by
  decide

/-- Validation of the SHA-256 embedding on the FIPS 180-4 test vector for
the three byte message abc. -/
lemma sha256_abc_vector :
    sha256 [97, 98, 99] =
      [186, 120, 22, 191, 143, 1, 207, 234, 65, 65, 64, 222, 93, 174, 34, 35,
       176, 3, 97, 163, 150, 23, 122, 156, 180, 16, 255, 97, 242, 0, 21, 173] := by
  decide

/-- Modelled from the spec: the constant salt. The concrete byte string
lives in the proof_of_work module, which is absent from src/; the spec
fixes only that it is a compiled in constant byte string, so an arbitrary
fixed byte string stands in for it. Every claim is independent of its
value. -/
def SALT : List Nat := [112, 111, 119, 45, 115, 104, 97, 50, 53, 54, 45, 115, 97, 108, 116]

/-- Modelled from the spec: the deterministic network order serialization
of the 128 bit proof counter, 16 big endian bytes. -/
def serializeU128 (n : Nat) : List Nat := beBytes 16 (n % 2 ^ 128)

/-- Modelled from the spec: score(target, proof). SHA-256 is computed over
the concatenation SALT + target + proof (the target given by its
serialized bytes, the proof a 128 bit counter serialized big endian), and
the first 16 bytes of the digest are read as a 128 bit big endian
unsigned integer. -/
def score (targetBytes : List Nat) (n : Nat) : Nat :=
  readBE ((sha256 (SALT ++ (targetBytes ++ serializeU128 n))).take 16)

/-- Modelled from the spec: the proving loop. Starting from counter n, if
score is at least the difficulty the candidate is returned, otherwise the
counter is advanced by one; fuel makes the unbounded search structural,
with none standing for an exhausted search. -/
def proveWorkAux (targetBytes : List Nat) (d : Nat) : Nat → Nat → Option Nat
  | 0, _ => none
  | fuel + 1, n =>
      if d ≤ score targetBytes n then some n else proveWorkAux targetBytes d fuel (n + 1)

/-- Modelled from the spec: prove_work(target, difficulty) starts the
search at counter 0. -/
def proveWork (fuel : Nat) (targetBytes : List Nat) (d : Nat) : Option Nat :=
  proveWorkAux targetBytes d fuel 0

/-- The largest unsigned 128 bit integer, u128::max_value(). -/
def max128 : Nat := 2 ^ 128 - 1

/-- Rust unsigned integer division: a fault (modelled as none) on a zero
divisor, truncating division otherwise. -/
def rustDiv (a b : Nat) : Option Nat := if b = 0 then none else some (a / b)

/-- Embedding of fn difficulty(average) from the src lib.rs doc code: a
debug_assert_ne rejects average = 0 when debug assertions are on, then
m - m / average is computed; with debug assertions off, average = 0 still
faults in the division. The Bool selects the build kind. -/
def difficulty (debugAssertions : Bool) (average : Nat) : Option Nat :=
  if debugAssertions = true ∧ average = 0 then none
  else (rustDiv max128 average).map (fun q => max128 - q)

/-- Embedding of fn average(difficulty) from the src lib.rs doc code:
m is returned outright when difficulty = m, otherwise m / (m - difficulty)
is computed. -/
def average (d : Nat) : Option Nat :=
  if d = max128 then some max128
  else rustDiv max128 (max128 - d)

/-- The round trip of claim C3: average_from_difficulty then
difficulty_from_average. -/
def roundTrip (debugAssertions : Bool) (d : Nat) : Option Nat :=
  (average d).bind (difficulty debugAssertions)

/- Helper lemmas shared between claims. -/

lemma difficulty_eq_of_ne_zero (b : Bool) (a : Nat) (h : a ≠ 0) :
    difficulty b a = some (max128 - max128 / a) := by
  simp [difficulty, rustDiv, h]

lemma beBytes_lt_256 (k n : Nat) : ∀ b ∈ beBytes k n, b < 256 := by
  induction k generalizing n with
  | zero => intro b hb; simp [beBytes] at hb
  | succ k ih =>
      intro b hb
      simp only [beBytes, List.mem_append, List.mem_singleton] at hb
      rcases hb with hb | hb
      · exact ih (n / 256) b hb
      · subst hb; exact Nat.mod_lt _ (by norm_num)

lemma sha256_bytes_lt_256 (msg : List Nat) : ∀ b ∈ sha256 msg, b < 256 := by
  unfold sha256
  generalize (toChunks (msg.length + 65) (pad msg)).foldl processBlock H0 = ws
  induction ws with
  | nil => intro b hb; simp at hb
  | cons w rest ih =>
      intro b hb
      simp only [List.foldr_cons, List.mem_append] at hb
      rcases hb with hb | hb
      · exact beBytes_lt_256 4 w b hb
      · exact ih b hb

lemma readBE_foldl_lt (bs : List Nat) :
    ∀ acc, (∀ b ∈ bs, b < 256) →
      bs.foldl (fun acc b => acc * 256 + b) acc < (acc + 1) * 256 ^ bs.length := by
  induction bs with
  | nil => intro acc _; simp
  | cons b rest ih =>
      intro acc h
      have hb : b < 256 := h b (by simp)
      have hrest : ∀ x ∈ rest, x < 256 := fun x hx => h x (by simp [hx])
      have step := ih (acc * 256 + b) hrest
      calc (b :: rest).foldl (fun acc b => acc * 256 + b) acc
          = rest.foldl (fun acc b => acc * 256 + b) (acc * 256 + b) := by simp
        _ < (acc * 256 + b + 1) * 256 ^ rest.length := step
        _ ≤ ((acc + 1) * 256) * 256 ^ rest.length := by
              have : acc * 256 + b + 1 ≤ (acc + 1) * 256 := by nlinarith
              exact Nat.mul_le_mul_right _ this
        _ = (acc + 1) * 256 ^ (b :: rest).length := by ring_nf; simp [List.length_cons]; ring

lemma readBE_lt (bs : List Nat) (h : ∀ b ∈ bs, b < 256) : readBE bs < 256 ^ bs.length := by
  simpa using readBE_foldl_lt bs 0 h

lemma score_lt_2_pow_128 (t : List Nat) (p : Nat) : score t p < 2 ^ 128 := by
  unfold score
  have hlt : ∀ b ∈ (sha256 (SALT ++ (t ++ serializeU128 p))).take 16, b < 256 :=
    fun b hb => sha256_bytes_lt_256 _ b (List.mem_of_mem_take hb)
  have hlen : ((sha256 (SALT ++ (t ++ serializeU128 p))).take 16).length ≤ 16 := by
    simp
  calc readBE ((sha256 (SALT ++ (t ++ serializeU128 p))).take 16)
      < 256 ^ ((sha256 (SALT ++ (t ++ serializeU128 p))).take 16).length := readBE_lt _ hlt
    _ ≤ 256 ^ 16 := Nat.pow_le_pow_right (by norm_num) hlen
    _ = 2 ^ 128 := by norm_num

lemma proveWorkAux_sound (t : List Nat) (d : Nat) :
    ∀ fuel n p, proveWorkAux t d fuel n = some p → d ≤ score t p := by
  intro fuel
  induction fuel with
  | zero => intro n p h; simp [proveWorkAux] at h
  | succ f ih =>
      intro n p h
      by_cases hc : d ≤ score t n
      · have hnp : n = p := by simpa [proveWorkAux, hc] using h
        exact hnp ▸ hc
      · exact ih (n + 1) p (by simpa [proveWorkAux, hc] using h)

/- Claim theorems. -/

/-- Claim C1: for every target T and proof P, score(T, P) equals the
unsigned 128 bit big endian integer read from the first 16 bytes of the
SHA-256 digest of the byte concatenation, in this exact order, of the
serialized constant salt, the serialized target, and the serialized
proof. The second conjunct records that the score indeed fits in an
unsigned 128 bit integer. -/
theorem score_is_first16_be_of_sha256 (t : List Nat) (p : Nat) :
    score t p = readBE ((sha256 ((SALT ++ t) ++ serializeU128 p)).take 16) ∧
      score t p < 2 ^ 128 := by
  refine ⟨?_, score_lt_2_pow_128 t p⟩
  unfold score
  rw [List.append_assoc]

/-- Claim C2: for every difficulty D and target T, whenever prove_work
returns a proof P rather than an error, score(T, P) is at least D. -/
theorem prove_work_meets_threshold (fuel : Nat) (t : List Nat) (d p : Nat)
    (h : proveWork fuel t d = some p) : d ≤ score t p :=
  proveWorkAux_sound t d fuel 0 p h

theorem prove_work_meets_threshold_witness : 1 ≤ score [97, 98, 99] 0 :=
  prove_work_meets_threshold 5 [97, 98, 99] 1 0 (by decide)

/-- Claim C3, counterexample: at D = max128 / 2 (truncating division, so
2 ^ 127 - 1) the round trip difficulty_from_average of
average_from_difficulty returns 0, which misses D by far more than any
integer rounding tolerance. -/
theorem round_trip_half_max_counterexample :
    roundTrip false (max128 / 2) = some 0 ∧ ¬(max128 / 2 - 0 ≤ 1) := by
  constructor
  · decide
  · decide

/-- Claim C3, amended: in every build kind, the round trip is exact at
D = 0 and at D = max128 - max128 / 2, and returns max128 - 1 at
D = max128; but at D = max128 / 2 = 2 ^ 127 - 1 it collapses to 0,
because average_from_difficulty truncates max128 / 2 ^ 127 to 1. -/
theorem round_trip_samples (b : Bool) :
    roundTrip b 0 = some 0 ∧
      roundTrip b (max128 - max128 / 2) = some (max128 - max128 / 2) ∧
      roundTrip b max128 = some (max128 - 1) ∧
      roundTrip b (max128 / 2) = some 0 := by
  cases b <;> exact ⟨by decide, by decide, by decide, by decide⟩

/-- Claim C4: average_from_difficulty(max128) returns max128 exactly via
the explicit special case, and on every difficulty d below max128 it
returns max128 / (max128 - d) in truncating unsigned arithmetic. -/
theorem average_special_case_and_formula :
    average max128 = some max128 ∧
      ∀ d, d < max128 → average d = some (max128 / (max128 - d)) := by
  constructor
  · simp [average]
  · intro d hd
    simp [average, rustDiv, Nat.ne_of_lt hd, Nat.sub_ne_zero_of_lt hd]

theorem average_special_case_and_formula_witness :
    average 0 = some (max128 / (max128 - 0)) :=
  average_special_case_and_formula.2 0 (by decide)

/-- Claim C5: for every nonzero average a and either build kind,
difficulty_from_average(a) returns exactly max128 - max128 / a in
truncating unsigned 128 bit arithmetic. -/
theorem difficulty_formula (b : Bool) (a : Nat) (h : a ≠ 0) :
    difficulty b a = some (max128 - max128 / a) :=
  difficulty_eq_of_ne_zero b a h

theorem difficulty_formula_witness :
    difficulty false 2 = some (max128 - max128 / 2) :=
  difficulty_formula false 2 (by decide)

/-- Claim C6: in every build kind (debug assertions on or off), calling
difficulty_from_average with average = 0 fails rather than silently
computing a result: the debug assertion fires in debug builds, and the
division by zero faults in release builds. -/
theorem difficulty_zero_average_fails (b : Bool) : difficulty b 0 = none := by
  cases b <;> simp [difficulty, rustDiv]

/-- Claim C7: score is deterministic; two evaluations of score(T, P) on
identical inputs yield identical results. -/
theorem score_deterministic (t : List Nat) (p r1 r2 : Nat)
    (h1 : score t p = r1) (h2 : score t p = r2) : r1 = r2 :=
  h1.symm.trans h2

theorem score_deterministic_witness :
    (222730121184099220280060451388040850603 : Nat) =
      222730121184099220280060451388040850603 :=
  score_deterministic [] 0 _ _ (by decide) (by decide)

/-- Claim C8: for every target T and any positive fuel, prove_work(T, 0)
succeeds on its first attempt: the score of the first candidate is at
least 0, so the initial counter 0 is returned as the winning proof. -/
theorem prove_work_zero_difficulty_first (t : List Nat) (fuel : Nat) (h : 0 < fuel) :
    proveWork fuel t 0 = some 0 := by
  cases fuel with
  | zero => exact absurd h (by simp)
  | succ f => simp [proveWork, proveWorkAux, Nat.zero_le]

theorem prove_work_zero_difficulty_first_witness :
    proveWork 1 [1, 2, 3] 0 = some 0 :=
  prove_work_zero_difficulty_first [1, 2, 3] 1 (by decide)

/-- Claim C9: average_from_difficulty is total and never divides by zero:
for every unsigned 128 bit difficulty d, the special case answers exactly
at d = max128, and otherwise the divisor max128 - d is positive and the
division produces a value. -/
theorem average_total_no_div_by_zero (d : Nat) (h : d ≤ max128) :
    (d = max128 → average d = some max128) ∧
      (d ≠ max128 → 0 < max128 - d ∧ average d = some (max128 / (max128 - d))) := by
  constructor
  · intro hd; simp [average, hd]
  · intro hd
    have hlt : d < max128 := lt_of_le_of_ne h hd
    exact ⟨Nat.sub_pos_of_lt hlt, by simp [average, rustDiv, hd, Nat.sub_ne_zero_of_lt hlt]⟩

theorem average_total_no_div_by_zero_witness :
    0 < max128 - 7 ∧ average 7 = some (max128 / (max128 - 7)) :=
  (average_total_no_div_by_zero 7 (by decide)).2 (by decide)

/-- Claim C10: difficulty_from_average is monotone nondecreasing on
nonzero inputs: with 1 ≤ a1 ≤ a2, whatever values it returns at a1 and a2
satisfy value(a1) ≤ value(a2). -/
theorem difficulty_monotone (b : Bool) (a1 a2 v1 v2 : Nat)
    (h1 : 1 ≤ a1) (h12 : a1 ≤ a2)
    (e1 : difficulty b a1 = some v1) (e2 : difficulty b a2 = some v2) : v1 ≤ v2 := by
  have ha1 : a1 ≠ 0 := by omega
  have ha2 : a2 ≠ 0 := by omega
  rw [difficulty_eq_of_ne_zero b a1 ha1] at e1
  rw [difficulty_eq_of_ne_zero b a2 ha2] at e2
  have hv1 : v1 = max128 - max128 / a1 := (Option.some.inj e1).symm
  have hv2 : v2 = max128 - max128 / a2 := (Option.some.inj e2).symm
  have hdiv : max128 / a2 ≤ max128 / a1 := Nat.div_le_div_left h12 (by omega)
  rw [hv1, hv2]
  exact Nat.sub_le_sub_left hdiv max128

theorem difficulty_monotone_witness :
    max128 - max128 / 2 ≤ max128 - max128 / 4 :=
  difficulty_monotone false 2 4 (max128 - max128 / 2) (max128 - max128 / 4)
    (by decide) (by decide) (by decide) (by decide)

end PowSha256
